import Mathlib

/-!
Verification development for the wavtools realtime playback engine
(`StreamProcessor` audio-worklet, WAV packer/recorder sample codec).

The definitions below are shallow embeddings of the JavaScript source:
JS numbers are modelled as `ℚ` (all operations the engine performs on
them — addition, multiplication, division, `Math.floor`, `Math.ceil`,
`Math.min`/`max`/`abs` — are exact on the rationals the engine produces;
the one divergence is division by zero, which is `Infinity`/`NaN` in JS
and `0` in `ℚ` — the rate controller reaches it only when
`serverSamplesTarget = 0`, i.e. the degenerate configuration
`playbackMinBuffers = 0`), Float32Array buffers as
`List ℚ`, the `trackSampleOffsets` object as an association list, and the
message-port dispatch as a total function returning `Except` (a thrown
`Error` is the `.error` case).
-/

namespace Wavtools

/-! ## Sample codec

`WavPacker.floatTo16BitPCM` (lib/wav_packer.js): per sample,
`s = Math.max(-1, Math.min(1, x)); view.setInt16(off, s < 0 ? s * 0x8000 : s * 0x7fff)`.
`setInt16` truncates its argument toward zero (`ToInt16`); for the values
produced here (`[-32768, 32767]`) no wrap-around occurs, so the stored
integer is `⌈s*32768⌉` for negative `s` and `⌊s*32767⌋` otherwise.

`WavRecorder.decode` (lib/wav_recorder.js): `float32Array[i] = audioData[i] / 32768`.
-/

/-- Clamp to `[-1, 1]`, as `Math.max(-1, Math.min(1, x))`. -/
def clamp1 (x : ℚ) : ℚ := max (-1) (min 1 x)

/-- One sample of `WavPacker.floatTo16BitPCM`: clamp, scale asymmetrically,
truncate toward zero to a 16-bit signed integer. -/
def floatTo16BitPCMSample (x : ℚ) : ℤ :=
  let s := clamp1 x
  if s < 0 then ⌈s * 32768⌉ else ⌊s * 32767⌋

/-- `WavPacker.floatTo16BitPCM` over a whole buffer. -/
def floatTo16BitPCM (xs : List ℚ) : List ℤ :=
  xs.map floatTo16BitPCMSample

/-- One sample of the inbound 16-bit decode used by both
`WavRecorder.decode` and the worklet `write` handler: `v / 0x8000`. -/
def int16ToFloat (i : ℤ) : ℚ := (i : ℚ) / 32768

/-! ## StreamProcessor data model

Embedded from the final converged worklet revision
(`lib/worklets/stream_processor.js` as bundled, the revision with
`playbackRateAffordance` and spread-merge `configure`).
-/

/-- One queued output buffer: `{ trackId, buffer, isSilence }` as pushed by
`writeData` of the final revision. -/
structure BufUnit where
  trackId : Option String
  buffer : List ℚ
  isSilence : Bool
  deriving DecidableEq

/-- Full mutable state of a `StreamProcessor` instance (constructor fields).
`bufferLength` is the constant 128 and is kept as a global definition. -/
structure SPState where
  hasStarted : Bool
  hasInterrupted : Bool
  outputBuffers : List BufUnit
  writeTrackId : Option String
  playbackRateMin : ℚ
  playbackRateMax : ℚ
  playbackRateAffordance : ℚ
  playbackSmoothing : ℚ
  playbackSkipDigitalSilence : Bool
  playbackMinBuffers : ℚ
  playbackRate : ℚ
  playbackOutputOffset : ℕ
  isInPlayback : Bool
  trackSampleOffsets : List (String × ℚ)
  deriving DecidableEq

/-- `this.bufferLength = 128` (hardcoded by the AudioWorkletProcessor). -/
def bufferLength : ℕ := 128

/-- Constructor state of the final revision's `StreamProcessor`. -/
def initState : SPState where
  hasStarted := false
  hasInterrupted := false
  outputBuffers := []
  writeTrackId := none
  playbackRateMin := 1
  playbackRateMax := 1
  playbackRateAffordance := 1/5
  playbackSmoothing := 9/10
  playbackSkipDigitalSilence := true
  playbackMinBuffers := 16
  playbackRate := 1
  playbackOutputOffset := 0
  isInPlayback := false
  trackSampleOffsets := []

/-- Partial configuration object carried by a `configure` message; a `none`
field is a key absent from `payload.config` (spread-merge leaves the
current value in place). -/
structure ConfigUpdate where
  playbackMinBuffers : Option ℚ := none
  playbackRateMin : Option ℚ := none
  playbackRateMax : Option ℚ := none
  playbackRateAffordance : Option ℚ := none
  playbackSmoothing : Option ℚ := none
  playbackSkipDigitalSilence : Option Bool := none
  deriving DecidableEq

/-- The `configure` handler of the final revision: spread-merge of the
current values with the provided keys, then field-by-field assignment. -/
def configureStep (s : SPState) (c : ConfigUpdate) : SPState :=
  { s with
    playbackMinBuffers := c.playbackMinBuffers.getD s.playbackMinBuffers
    playbackRateMin := c.playbackRateMin.getD s.playbackRateMin
    playbackRateMax := c.playbackRateMax.getD s.playbackRateMax
    playbackRateAffordance := c.playbackRateAffordance.getD s.playbackRateAffordance
    playbackSmoothing := c.playbackSmoothing.getD s.playbackSmoothing
    playbackSkipDigitalSilence := c.playbackSkipDigitalSilence.getD s.playbackSkipDigitalSilence }

/-- `writeData` of the final revision: classify the whole incoming buffer as
silence iff every sample is zero, and push one unit at the queue tail. -/
def writeData (s : SPState) (float32Array : List ℚ) (trackId : Option String) : SPState :=
  let isSilence := float32Array.all (fun x => x == 0)
  { s with outputBuffers := s.outputBuffers ++ [⟨trackId, float32Array, isSilence⟩] }

/-- The `write` message branch: decode Int16 samples by `/ 0x8000`, record
the track id, append via `writeData`. -/
def writeMsg (s : SPState) (trackId : Option String) (int16Array : List ℤ) : SPState :=
  writeData { s with writeTrackId := trackId } (int16Array.map int16ToFloat) trackId

/-- An inbound control message. The JS payload is a dynamic object tagged
by its `event` string; the typed fields below carry the data each
recognized branch reads (schema of §6 of the design). -/
structure Payload where
  event : String
  buffer : List ℤ := []
  trackId : Option String := none
  requestId : String := ""
  config : ConfigUpdate := {}

/-- The `port.onmessage` dispatcher of the final revision. Recognized
events mutate the state (the `offset` response posted for
`offset`/`interrupt` is outbound I/O and does not change state beyond the
sticky interrupt flag); an unrecognized event throws
`Error('Unhandled event: ' + payload.event)`, modelled as `.error`. -/
def handleMessage (s : SPState) (p : Payload) : Except String SPState :=
  if p.event = "write" then
    .ok (writeMsg s p.trackId p.buffer)
  else if p.event = "offset" ∨ p.event = "interrupt" then
    .ok (if p.event = "interrupt" then { s with hasInterrupted := true } else s)
  else if p.event = "configure" then
    .ok (configureStep s p.config)
  else
    .error ("Unhandled event: " ++ p.event)

/-! ## Render scheduler (`process`) -/

/-- `serverSamplesTarget = this.playbackMinBuffers * this.bufferLength`. -/
def serverSamplesTarget (s : SPState) : ℚ :=
  s.playbackMinBuffers * (bufferLength : ℚ)

/-- Sum of the lengths of all queued buffers (`totalSamples` accumulation). -/
def totalQueuedSamples (units : List BufUnit) : ℚ :=
  units.foldl (fun t u => t + (u.buffer.length : ℚ)) 0

/-- The skip-silence consumability scan (final revision): walking the queue
with a `foundNonSilence` flag, a unit's samples count toward
`consumableSamples` once `isInPlayback` holds, or the unit is not wholly
silent, or accumulation has already begun. Returns the accumulated
`consumableSamples`, starting from `c0 = -playbackOutputOffset`. -/
def silenceSkipScan (inPlayback : Bool) (units : List BufUnit) (c0 : ℚ) : ℚ × Bool :=
  units.foldl
    (fun (acc : ℚ × Bool) u =>
      if inPlayback || !u.isSilence || acc.2 then
        (acc.1 + (u.buffer.length : ℚ), true)
      else acc)
    (c0, false)

/-- `consumableSamples` as computed by `process`: starts at
`-playbackOutputOffset`; with skip-silence the anchored scan, otherwise the
plain sum of queued lengths. -/
def consumableSamples (s : SPState) : ℚ :=
  let c0 : ℚ := -(s.playbackOutputOffset : ℚ)
  if s.playbackSkipDigitalSilence then
    (silenceSkipScan s.isInPlayback s.outputBuffers c0).1
  else
    c0 + totalQueuedSamples s.outputBuffers

/-- `shouldConsumeBuffer`: with skip-silence, `isInPlayback ||`
`consumableSamples >= serverSamplesTarget`; otherwise `hasStarted || ...`. -/
def shouldConsumeBuffer (s : SPState) : Bool :=
  if s.playbackSkipDigitalSilence then
    s.isInPlayback || decide (consumableSamples s ≥ serverSamplesTarget s)
  else
    s.hasStarted || decide (consumableSamples s ≥ serverSamplesTarget s)

/-- `determinePlaybackRate(availableSamples, targetSamples)` of the final
revision: rate adaptation (and the clamp) run only when
`playbackRateMin < playbackRateMax`; within the affordance band the raw
rate is 1.0, below target `1 + max(-0.975, delta/target)`, above target
`1 / (1 - min(0.975, delta/target))`, clamped to the configured band. -/
def determinePlaybackRate (s : SPState) (availableSamples targetSamples : ℚ) : ℚ :=
  if s.playbackRateMin < s.playbackRateMax then
    let samplesDelta := availableSamples - targetSamples
    let r :=
      if |samplesDelta| > s.playbackRateAffordance * targetSamples then
        if samplesDelta ≤ 0 then
          1 + max (-(39/40 : ℚ)) (samplesDelta / targetSamples)
        else
          1 / (1 - min (39/40 : ℚ) (samplesDelta / targetSamples))
      else 1
    min s.playbackRateMax (max s.playbackRateMin r)
  else 1

/-- The smoothed rate stored each consuming quantum:
`this.playbackRate * smoothing + determinePlaybackRate(...) * (1 - smoothing)`. -/
def nextPlaybackRate (s : SPState) : ℚ :=
  s.playbackRate * s.playbackSmoothing +
    determinePlaybackRate s (consumableSamples s) (serverSamplesTarget s) *
      (1 - s.playbackSmoothing)

/-- `Math.floor(outputChanneDataSampledNeeded * this.playbackRate)` with the
freshly smoothed rate — the scratch-buffer length, as an integer (negative
means `new Float32Array` would throw). -/
def neededSamplesZ (s : SPState) (q : ℕ) : ℤ :=
  ⌊(q : ℚ) * nextPlaybackRate s⌋

/-- The scratch-buffer length as a natural number. -/
def neededSamples (s : SPState) (q : ℕ) : ℕ :=
  (neededSamplesZ s q).toNat

/-- `resampleAudioData(float32Array, targetSamples)`: identity when the
target length already matches, otherwise per output index `i` a fractional
source index `i * (len/target)`; copy the floor sample when floor and
ceiling coincide or the ceiling is out of range, else linearly
interpolate. (`getD _ 0` never takes its default in the engine's calls:
the source is nonempty there, and the floor index stays in range.) -/
def resampleAudioData (float32Array : List ℚ) (targetSamples : ℕ) : List ℚ :=
  if targetSamples = float32Array.length then float32Array
  else
    let playbackRate : ℚ := (float32Array.length : ℚ) / (targetSamples : ℚ)
    (List.range targetSamples).map (fun (i : ℕ) =>
      let originalIndex : ℚ := (i : ℚ) * playbackRate
      let start := (⌊originalIndex⌋).toNat
      let stop := (⌈originalIndex⌉).toNat
      if start = stop ∨ float32Array.length ≤ stop then
        float32Array.getD start 0
      else
        let ratio := originalIndex - (start : ℚ)
        float32Array.getD start 0 * (1 - ratio) + float32Array.getD stop 0 * ratio)

/-- Result of the read-walk over `outputBuffers` (the `while` loop of
`process`): the samples read in order, the `samplesMoved` accumulated
(reads plus skipped silent lengths), the number of units fully passed
(`outputBufferIndex`, used for `slice`), the final `outputBufferOffset`,
the last `outputTrackId` seen, and `ok = false` when the JS loop would
spin forever (a unit whose offset is at or past its end is reached while
more samples are still needed and the unit is not skipped). -/
structure WalkResult where
  read : List ℚ
  moved : ℕ
  drop : ℕ
  offset : ℕ
  trackId : Option String
  ok : Bool
  deriving DecidableEq

/-- The read-walk. `needed` is `outputBufferSamplesNeeded`, `readCount` the
`samplesRead` already accumulated, `off` the current `outputBufferOffset`,
`tid` the current `outputTrackId`. Per unit: set the track id; skip a
wholly-silent unit at offset 0 when skip-silence is on (counting its
length into `moved`); otherwise read up to the remaining need, resetting
the offset and advancing the index exactly when the unit's last sample is
read; break once `samplesRead` reaches `needed`. -/
def walk (skip : Bool) (needed : ℕ) (tid : Option String) :
    List BufUnit → ℕ → ℕ → WalkResult
  | [], off, _ => ⟨[], 0, 0, off, tid, true⟩
  | u :: rest, off, readCount =>
    let tid' := u.trackId
    if skip && u.isSilence && off == 0 then
      let w := walk skip needed tid' rest 0 readCount
      ⟨w.read, w.moved + u.buffer.length, w.drop + 1, w.offset, w.trackId, w.ok⟩
    else if needed ≤ readCount then
      -- zero loop iterations; `samplesRead === needed` breaks, anything
      -- larger would spin (unreachable from `readCount = 0`)
      ⟨[], 0, 0, off, tid', decide (readCount = needed)⟩
    else if u.buffer.length ≤ off then
      -- zero loop iterations with samples still needed: the JS `while`
      -- never advances `outputBufferIndex` again
      ⟨[], 0, 0, off, tid', false⟩
    else
      let avail := u.buffer.length - off
      let want := needed - readCount
      if want < avail then
        ⟨(u.buffer.drop off).take want, want, 0, off + want, tid', true⟩
      else if want = avail then
        ⟨u.buffer.drop off, avail, 1, 0, tid', true⟩
      else
        let w := walk skip needed tid' rest 0 (readCount + avail)
        ⟨u.buffer.drop off ++ w.read, avail + w.moved, 1 + w.drop, w.offset, w.trackId, w.ok⟩

/-- `this.trackSampleOffsets[k] || 0` on the association-list model. -/
def lookupD (m : List (String × ℚ)) (k : String) : ℚ :=
  match m with
  | [] => 0
  | (k', v) :: rest => if k' = k then v else lookupD rest k

/-- Store a key's value, replacing an existing entry or appending. -/
def setEntry (m : List (String × ℚ)) (k : String) (v : ℚ) : List (String × ℚ) :=
  match m with
  | [] => [(k, v)]
  | (k', v') :: rest => if k' = k then (k, v) :: rest else (k', v') :: setEntry rest k v

/-- `if (outputTrackId) { trackSampleOffsets[outputTrackId] += n }` — a
truthy (non-null, nonempty) track id accumulates the resampled length. -/
def updateTrackOffsets (m : List (String × ℚ)) (tid : Option String) (n : ℕ) :
    List (String × ℚ) :=
  match tid with
  | none => m
  | some t => if t = "" then m else setEntry m t (lookupD m t + (n : ℚ))

/-- The samples written to the output quantum, as a function of the quantum
size, the scratch length and the samples read: nothing when nothing was
read, otherwise the scratch (read samples, zero-filled to `needed`)
resampled to the quantum size, truncated to it. -/
def renderOutput (q needed : ℕ) (read : List ℚ) : List ℚ :=
  if read.isEmpty then []
  else (resampleAudioData (read ++ List.replicate (needed - read.length) 0) q).take q

/-- Everything one `process(inputs, outputs, parameters)` call produces:
the successor state, the samples written into `outputChannelData` (length
`samplesWritten`), the counters, the `underrun` field of the posted
`audio` event, and whether the `stop` event was posted instead (the
interrupted terminal branch, which returns `false` to the host). -/
structure ProcResult where
  state : SPState
  output : List ℚ
  samplesRead : ℕ
  samplesMoved : ℕ
  samplesWritten : ℕ
  underrun : ℚ
  stopped : Bool
  deriving DecidableEq

/-- One invocation of `process` of the final revision, over a quantum of
`q = outputChannelData.length` samples. `none` models an invocation that
does not complete normally: a negative scratch length (JS
`new Float32Array` throws a `RangeError`) or a read-walk the JS `while`
loop never exits. -/
def process (s : SPState) (q : ℕ) : Option ProcResult :=
  if s.hasInterrupted then
    some ⟨s, [], 0, 0, 0, 0, true⟩
  else
    let total := totalQueuedSamples s.outputBuffers
    if s.outputBuffers.isEmpty then
      some ⟨{ s with isInPlayback := false }, [], 0, 0, 0, max 0 ((q : ℚ) - total), false⟩
    else if shouldConsumeBuffer s && decide (0 < consumableSamples s) then
      let rate := nextPlaybackRate s
      if neededSamplesZ s q < 0 then none
      else
        let needed := neededSamples s q
        let w := walk s.playbackSkipDigitalSilence needed none
          s.outputBuffers s.playbackOutputOffset 0
        if !w.ok then none
        else
          let sRead := w.read.length
          if 0 < sRead then
            let scratch := w.read ++ List.replicate (needed - sRead) 0
            let res := resampleAudioData scratch q
            let s' : SPState :=
              { s with
                outputBuffers := s.outputBuffers.drop w.drop
                playbackOutputOffset := w.offset
                playbackRate := rate
                trackSampleOffsets := updateTrackOffsets s.trackSampleOffsets w.trackId res.length
                hasStarted := true
                isInPlayback := decide (0 < min res.length q) }
            some ⟨s', res.take q, sRead, w.moved, min res.length q,
              max 0 ((q : ℚ) - total), false⟩
          else
            some ⟨{ s with playbackRate := rate, isInPlayback := false },
              [], 0, w.moved, 0, max 0 ((q : ℚ) - total), false⟩
    else
      some ⟨{ s with isInPlayback := false }, [], 0, 0, 0, max 0 ((q : ℚ) - total), false⟩

/-- A sequence of `write` commands applied in order. -/
def applyWrites (s : SPState) (ws : List (Option String × List ℤ)) : SPState :=
  ws.foldl (fun s w => writeMsg s w.1 w.2) s

/-- Total number of samples carried by a sequence of `write` commands. -/
def sampleSum (ws : List (Option String × List ℤ)) : ℕ :=
  (ws.map (fun w => w.2.length)).sum

/-! ## Earlier revision: segmented units (`movedSamples` / `silenceSamples`)

The revision in `src/lib/worklets/stream_processor.js` (and the variant
with `consumableSamples` starting at 0) queues units produced by a
silence-run segmenter, each carrying `movedSamples` and `silenceSamples`
counts. Only the consumability computation of its `process` is needed
here. -/

namespace SP2

/-- A queued unit of the segmenting revision:
`{ trackId, buffer, movedSamples, silenceSamples }`. -/
structure SP2Unit where
  trackId : Option String
  buffer : List ℚ
  movedSamples : ℕ
  silenceSamples : ℕ
  deriving DecidableEq

/-- `consumableSamples` of the segmenting revision's `process` with
skip-silence on: starts at `-this.playbackOutputOffset`; a unit's
`movedSamples` count once `isInPlayback` holds, or the running count is
truthy (JS: nonzero), or the unit is not wholly silent
(`movedSamples > silenceSamples`). -/
def consumableSamples (isInPlayback : Bool) (offset : ℕ) (units : List SP2Unit) : ℚ :=
  units.foldl
    (fun c u =>
      if isInPlayback || decide (c ≠ 0) || decide (u.silenceSamples < u.movedSamples) then
        c + (u.movedSamples : ℚ)
      else c)
    (-(offset : ℚ))

/-- `shouldConsumeBuffer` of the segmenting revision with skip-silence on:
`isInPlayback || consumableSamples >= playbackMinBuffers * bufferLength`. -/
def shouldConsumeBuffer (isInPlayback : Bool) (offset : ℕ) (units : List SP2Unit)
    (playbackMinBuffers : ℚ) : Bool :=
  isInPlayback ||
    decide (consumableSamples isInPlayback offset units ≥
      playbackMinBuffers * (Wavtools.bufferLength : ℚ))

end SP2

/-- Modelled from the spec's words (§4.4 / claim C3), for comparison with
the source's `determinePlaybackRate`: return 1.0 when
`rateMin == rateMax`; otherwise compute `delta`, keep 1.0 inside the
affordance band, bias by the under/over-target formulas, and clamp the
result to `[rateMin, rateMax]`. -/
def specDetermineRate (s : SPState) (consumable target : ℚ) : ℚ :=
  if s.playbackRateMin = s.playbackRateMax then 1
  else
    let delta := consumable - target
    let raw :=
      if |delta| ≤ s.playbackRateAffordance * target then 1
      else if delta ≤ 0 then 1 + max (-(39/40 : ℚ)) (delta / target)
      else 1 / (1 - min (39/40 : ℚ) (delta / target))
    min s.playbackRateMax (max s.playbackRateMin raw)

end Wavtools

attribute [local semireducible] Rat.add Rat.mul Rat.sub Rat.inv Rat.ofScientific

namespace Wavtools

/-- Clamping into an ordered pair of bounds lands between them. -/
lemma clamp_mem (a b r : ℚ) (h : a ≤ b) :
    a ≤ min b (max a r) ∧ min b (max a r) ≤ b :=
  ⟨le_min h (le_max_left a r), min_le_left b _⟩

/-- With `rateMin < rateMax`, the controller's result is clamped into the band. -/
lemma determinePlaybackRate_mem (s : SPState) (a t : ℚ)
    (h : s.playbackRateMin < s.playbackRateMax) :
    s.playbackRateMin ≤ determinePlaybackRate s a t ∧
      determinePlaybackRate s a t ≤ s.playbackRateMax := by
  unfold determinePlaybackRate
  rw [if_pos h]
  exact clamp_mem _ _ _ h.le

/-- Whenever `rateMin ≤ rateMax`, the source's controller agrees with the
formula the spec states. -/
lemma determinePlaybackRate_eq_spec (s : SPState) (a t : ℚ)
    (h : s.playbackRateMin ≤ s.playbackRateMax) :
    determinePlaybackRate s a t = specDetermineRate s a t := by
  unfold determinePlaybackRate specDetermineRate
  rcases lt_or_eq_of_le h with hlt | heq
  · rw [if_pos hlt, if_neg (ne_of_lt hlt)]
    dsimp only
    by_cases hc : |a - t| ≤ s.playbackRateAffordance * t
    · rw [if_neg (not_lt.mpr hc), if_pos hc]
    · rw [if_pos (lt_of_not_le hc), if_neg hc]
  · rw [if_neg (by rw [heq]; exact lt_irrefl _), if_pos heq]

/-- Each non-interrupted quantum either leaves the stored rate alone or
replaces it by the exponentially smoothed value. -/
lemma process_rate_update (s : SPState) (q : ℕ) (r : ProcResult)
    (h : process s q = some r) :
    r.state.playbackRate = s.playbackRate ∨
      r.state.playbackRate = nextPlaybackRate s := by
  simp only [process] at h
  split at h
  · injection h with h; subst h; left; rfl
  · split at h
    · injection h with h; subst h; left; rfl
    · split at h
      · split at h
        · exact absurd h (by simp)
        · split at h
          · exact absurd h (by simp)
          · split at h
            · injection h with h; subst h; right; rfl
            · injection h with h; subst h; right; rfl
      · injection h with h; subst h; left; rfl
end Wavtools

namespace Wavtools

/-- Configuration used to refute C3/C4 on a degenerate band. -/
def c4State : SPState := { initState with playbackRateMin := 2, playbackRateMax := 2 }

/-- Configuration with an inverted band (`rateMin > rateMax`). -/
def c3State : SPState := { initState with playbackRateMin := 3, playbackRateMax := 2 }

/-- A configuration with a genuine band, used by witnesses. -/
def bandState : SPState := { initState with playbackRateMin := 1/2, playbackRateMax := 2 }

/-- C3 counterexample: with `rateMin = 3 > 2 = rateMax` the code returns 1.0
(it adapts and clamps only when `rateMin < rateMax`), while the claim's
formula — within tolerance, raw 1.0, clamped to `[rateMin, rateMax]` —
yields 2. -/
theorem c3_counterexample :
    determinePlaybackRate c3State 128 128 = 1 ∧
      specDetermineRate c3State 128 128 = 2 ∧ (1 : ℚ) ≠ 2 := by
  refine ⟨by decide, by decide, by decide⟩

/-- C3 amended: the controller computes exactly the spec's formula whenever
`rateMin ≤ rateMax` (for `rateMin > rateMax` it returns 1.0 without
clamping); and each quantum either keeps the stored rate or replaces it by
`previousRate*smoothing + rawRate*(1-smoothing)` with the raw rate taken at
`(consumableSamples, serverSamplesTarget)`. -/
theorem c3_amended :
    (∀ (s : SPState) (a t : ℚ), s.playbackRateMin ≤ s.playbackRateMax →
      determinePlaybackRate s a t = specDetermineRate s a t) ∧
    (∀ (s : SPState) (q : ℕ) (r : ProcResult), process s q = some r →
      r.state.playbackRate = s.playbackRate ∨
        r.state.playbackRate =
          s.playbackRate * s.playbackSmoothing +
            determinePlaybackRate s (consumableSamples s) (serverSamplesTarget s) *
              (1 - s.playbackSmoothing)) :=
  ⟨determinePlaybackRate_eq_spec, fun s q r h => process_rate_update s q r h⟩

/-- Idle result of a quantum over an empty queue, used by witnesses. -/
def c3wRes : ProcResult :=
  ⟨{ initState with isInPlayback := false }, [], 0, 0, 0, 4, false⟩

/-- Witness for `c3_amended` at a concrete configuration and quantum. -/
theorem c3_amended_witness :
    determinePlaybackRate bandState 130 128 = specDetermineRate bandState 130 128 ∧
      (c3wRes.state.playbackRate = initState.playbackRate ∨
        c3wRes.state.playbackRate =
          initState.playbackRate * initState.playbackSmoothing +
            determinePlaybackRate initState (consumableSamples initState)
                (serverSamplesTarget initState) *
              (1 - initState.playbackSmoothing)) :=
  ⟨c3_amended.1 bandState 130 128 (by decide),
    c3_amended.2 initState 4 c3wRes (by decide)⟩

/-- C4 counterexample: with `rateMin = rateMax = 2` the controller returns
1.0, which is outside `[2, 2]`, for the non-negative inputs `(0, 128)`. -/
theorem c4_counterexample :
    determinePlaybackRate c4State 0 128 = 1 ∧
      ¬ (c4State.playbackRateMin ≤ determinePlaybackRate c4State 0 128) :=
  ⟨by decide, by decide⟩

/-- C4 amended: for every configuration with `rateMin < rateMax` and
non-negative inputs with positive target, the controller's value lies in
`[rateMin, rateMax]`. -/
theorem c4_amended (s : SPState) (a t : ℚ)
    (hlt : s.playbackRateMin < s.playbackRateMax) (ha : 0 ≤ a) (ht : 0 < t) :
    s.playbackRateMin ≤ determinePlaybackRate s a t ∧
      determinePlaybackRate s a t ≤ s.playbackRateMax :=
  determinePlaybackRate_mem s a t hlt

/-- Witness for `c4_amended`. -/
theorem c4_amended_witness :
    bandState.playbackRateMin ≤ determinePlaybackRate bandState 5 128 ∧
      determinePlaybackRate bandState 5 128 ≤ bandState.playbackRateMax :=
  c4_amended bandState 5 128 (by decide) (by decide) (by decide)

/-- A convex combination with weight in `[0,1]` stays inside an interval
containing both points. -/
lemma convex_mem (lo hi x y sm : ℚ) (hx1 : lo ≤ x) (hx2 : x ≤ hi)
    (hy1 : lo ≤ y) (hy2 : y ≤ hi) (h0 : 0 ≤ sm) (h1 : sm ≤ 1) :
    lo ≤ x * sm + y * (1 - sm) ∧ x * sm + y * (1 - sm) ≤ hi := by
  constructor <;> nlinarith

/-- The quantum's rate update leaves the configuration untouched. -/
lemma process_config_const (s : SPState) (q : ℕ) (r : ProcResult)
    (h : process s q = some r) :
    r.state.playbackRateMin = s.playbackRateMin ∧
      r.state.playbackRateMax = s.playbackRateMax := by
  simp only [process] at h
  split at h
  · injection h with h; subst h; exact ⟨rfl, rfl⟩
  · split at h
    · injection h with h; subst h; exact ⟨rfl, rfl⟩
    · split at h
      · split at h
        · exact absurd h (by simp)
        · split at h
          · exact absurd h (by simp)
          · split at h
            · injection h with h; subst h; exact ⟨rfl, rfl⟩
            · injection h with h; subst h; exact ⟨rfl, rfl⟩
      · injection h with h; subst h; exact ⟨rfl, rfl⟩

/-- C5 counterexample: from the initial state (rate 1, band `[1,1]`), the
`configure` command `{rateMin: 2, rateMax: 3}` widens the band without
touching the stored rate, which is then below the configured minimum. -/
theorem c5_counterexample :
    (configureStep initState
        { playbackRateMin := some 2, playbackRateMax := some 3 }).playbackRate = 1 ∧
      ¬ ((configureStep initState
          { playbackRateMin := some 2, playbackRateMax := some 3 }).playbackRateMin ≤
        (configureStep initState
          { playbackRateMin := some 2, playbackRateMax := some 3 }).playbackRate) :=
  ⟨by decide, by decide⟩

/-- C5 amended: a scheduler invocation (which never changes the
configuration) preserves `currentRate ∈ [rateMin, rateMax]` provided
`smoothingFactor ∈ [0,1]` and `rateMin < rateMax`; the invariant is not
preserved by `configure` commands that move the band away from the stored
rate. -/
theorem c5_amended (s : SPState) (q : ℕ) (r : ProcResult)
    (hsm0 : 0 ≤ s.playbackSmoothing) (hsm1 : s.playbackSmoothing ≤ 1)
    (hband : s.playbackRateMin < s.playbackRateMax)
    (hlo : s.playbackRateMin ≤ s.playbackRate)
    (hhi : s.playbackRate ≤ s.playbackRateMax)
    (h : process s q = some r) :
    r.state.playbackRateMin ≤ r.state.playbackRate ∧
      r.state.playbackRate ≤ r.state.playbackRateMax := by
  obtain ⟨hmin, hmax⟩ := process_config_const s q r h
  rw [hmin, hmax]
  rcases process_rate_update s q r h with hr | hr
  · rw [hr]; exact ⟨hlo, hhi⟩
  · rw [hr]
    unfold nextPlaybackRate
    obtain ⟨d1, d2⟩ :=
      determinePlaybackRate_mem s (consumableSamples s) (serverSamplesTarget s) hband
    exact convex_mem _ _ _ _ _ hlo hhi d1 d2 hsm0 hsm1

/-- Idle result of a quantum over an empty queue in the banded
configuration, used by the `c5_amended` witness. -/
def c5wRes : ProcResult :=
  ⟨{ bandState with isInPlayback := false }, [], 0, 0, 0, 4, false⟩

/-- Witness for `c5_amended` at a concrete banded state. -/
theorem c5_amended_witness :
    c5wRes.state.playbackRateMin ≤ c5wRes.state.playbackRate ∧
      c5wRes.state.playbackRate ≤ c5wRes.state.playbackRateMax :=
  c5_amended bandState 4 c5wRes
    (by decide) (by decide) (by decide) (by decide) (by decide) (by decide)

end Wavtools

namespace Wavtools

/-- C7 counterexample: at `x = 65535/65536` the encode scales by 32767 but
the decode divides by 32768, leaving an error of `3/65536 > 1/32768`. -/
theorem c7_counterexample :
    int16ToFloat (floatTo16BitPCMSample (65535/65536)) = 16383/16384 ∧
      ¬ (|int16ToFloat (floatTo16BitPCMSample (65535/65536)) - 65535/65536| ≤
        1/32768) :=
  ⟨by decide, by decide⟩

/-- C7 amended: for every `x ∈ [-1, 1]` the decode of the encode of `x` is
within TWO quantization steps of `x`: `|decode(encode(x)) - x| ≤ 1/16384`
(the one-step bound holds for `x ≤ 0`, where the scale factors agree). -/
theorem c7_amended (x : ℚ) (h1 : -1 ≤ x) (h2 : x ≤ 1) :
    |int16ToFloat (floatTo16BitPCMSample x) - x| ≤ 1/16384 := by
  have hc : clamp1 x = x := by
    unfold clamp1
    rw [min_eq_right h2, max_eq_right h1]
  unfold int16ToFloat floatTo16BitPCMSample
  dsimp only
  rw [hc]
  by_cases hx : x < 0
  · rw [if_pos hx]
    have hle : (x * 32768 : ℚ) ≤ (⌈x * 32768⌉ : ℚ) := Int.le_ceil _
    have hlt : ((⌈x * 32768⌉ : ℚ)) < x * 32768 + 1 := Int.ceil_lt_add_one _
    rw [abs_le]
    constructor <;> linarith
  · rw [if_neg hx]
    push_neg at hx
    have hle : ((⌊x * 32767⌋ : ℚ)) ≤ x * 32767 := Int.floor_le _
    have hlt : (x * 32767 : ℚ) < ⌊x * 32767⌋ + 1 := Int.lt_floor_add_one _
    rw [abs_le]
    constructor <;> linarith

/-- Witness for `c7_amended` at `x = 1/3`. -/
theorem c7_amended_witness :
    |int16ToFloat (floatTo16BitPCMSample (1/3)) - 1/3| ≤ 1/16384 :=
  c7_amended (1/3) (by norm_num) (by norm_num)

end Wavtools

namespace Wavtools

/-- The C6 scenario's queued unit: 64 silent samples followed by 64
non-silent samples, `movedSamples = 128`, `silenceSamples = 64`. -/
def c6Unit : SP2.SP2Unit :=
  ⟨some "t", List.replicate 64 0 ++ List.replicate 64 (1/2), 128, 64⟩

/-- C6 counterexample: in the claimed state the computed
`consumableSamples` is not 64 and `shouldConsumeBuffer` is not false — a
unit that is not wholly silent contributes its entire `movedSamples`,
silence prefix included. -/
theorem c6_counterexample :
    ¬ (SP2.consumableSamples false 0 [c6Unit] = 64) ∧
      ¬ (SP2.shouldConsumeBuffer false 0 [c6Unit] 1 = false) :=
  ⟨by decide, by decide⟩

/-- C6 amended: in that state `consumableSamples = 128` (the whole unit
counts once `movedSamples > silenceSamples`), hence
`shouldConsumeBuffer = true` and the scheduler proceeds to consume from
the queue in this invocation. -/
theorem c6_amended :
    SP2.consumableSamples false 0 [c6Unit] = 128 ∧
      SP2.shouldConsumeBuffer false 0 [c6Unit] 1 = true :=
  ⟨by decide, by decide⟩

/-- C8: `configure` merges field-by-field — every provided field (even an
explicit `false`/zero) overwrites, every absent field keeps its prior
value, and nothing else in the state changes; in particular
`configure({skipSilence: false})` over a state with `rateMin = 0.9`,
`rateMax = 1.1` keeps both rates and flips only the skip flag. -/
theorem c8_configure_merge :
    (∀ (s : SPState) (c : ConfigUpdate),
      (configureStep s c).playbackMinBuffers = c.playbackMinBuffers.getD s.playbackMinBuffers ∧
      (configureStep s c).playbackRateMin = c.playbackRateMin.getD s.playbackRateMin ∧
      (configureStep s c).playbackRateMax = c.playbackRateMax.getD s.playbackRateMax ∧
      (configureStep s c).playbackRateAffordance =
        c.playbackRateAffordance.getD s.playbackRateAffordance ∧
      (configureStep s c).playbackSmoothing = c.playbackSmoothing.getD s.playbackSmoothing ∧
      (configureStep s c).playbackSkipDigitalSilence =
        c.playbackSkipDigitalSilence.getD s.playbackSkipDigitalSilence ∧
      (configureStep s c).hasStarted = s.hasStarted ∧
      (configureStep s c).hasInterrupted = s.hasInterrupted ∧
      (configureStep s c).outputBuffers = s.outputBuffers ∧
      (configureStep s c).writeTrackId = s.writeTrackId ∧
      (configureStep s c).playbackRate = s.playbackRate ∧
      (configureStep s c).playbackOutputOffset = s.playbackOutputOffset ∧
      (configureStep s c).isInPlayback = s.isInPlayback ∧
      (configureStep s c).trackSampleOffsets = s.trackSampleOffsets) ∧
    ((configureStep { initState with playbackRateMin := 9/10, playbackRateMax := 11/10 }
        { playbackSkipDigitalSilence := some false }).playbackRateMin = 9/10 ∧
      (configureStep { initState with playbackRateMin := 9/10, playbackRateMax := 11/10 }
        { playbackSkipDigitalSilence := some false }).playbackRateMax = 11/10 ∧
      (configureStep { initState with playbackRateMin := 9/10, playbackRateMax := 11/10 }
        { playbackSkipDigitalSilence := some false }).playbackSkipDigitalSilence = false) :=
  ⟨fun s c =>
    ⟨rfl, rfl, rfl, rfl, rfl, rfl, rfl, rfl, rfl, rfl, rfl, rfl, rfl, rfl⟩,
    by decide, by decide, by decide⟩

/-- C9: dispatching an inbound message with an event name outside
`write`/`offset`/`interrupt`/`configure` throws
`Error('Unhandled event: ' + payload.event)`; every recognized event is
handled without raising. -/
theorem c9_dispatch (s : SPState) (p : Payload) :
    ((p.event ≠ "write" ∧ p.event ≠ "offset" ∧ p.event ≠ "interrupt" ∧
        p.event ≠ "configure") →
      handleMessage s p = Except.error ("Unhandled event: " ++ p.event)) ∧
    ((p.event = "write" ∨ p.event = "offset" ∨ p.event = "interrupt" ∨
        p.event = "configure") →
      ∃ s1, handleMessage s p = Except.ok s1) := by
  constructor
  · rintro ⟨h1, h2, h3, h4⟩
    unfold handleMessage
    rw [if_neg h1, if_neg (by simp [h2, h3]), if_neg h4]
  · rintro (h | h | h | h) <;>
      simp [handleMessage, h]

/-- Witness for `c9_dispatch`: a bogus event errors, `write` succeeds. -/
theorem c9_dispatch_witness :
    handleMessage initState { event := "bogus" } =
        Except.error ("Unhandled event: " ++ "bogus") ∧
      ∃ s1, handleMessage initState { event := "write" } = Except.ok s1 :=
  ⟨(c9_dispatch initState { event := "bogus" }).1
      ⟨by decide, by decide, by decide, by decide⟩,
    (c9_dispatch initState { event := "write" }).2 (Or.inl rfl)⟩

end Wavtools

namespace Wavtools

/-- `resampleAudioData` always returns exactly `targetSamples` samples. -/
lemma resampleAudioData_length (xs : List ℚ) (t : ℕ) :
    (resampleAudioData xs t).length = t := by
  unfold resampleAudioData
  split
  · next h => exact h.symm
  · rw [List.length_map, List.length_range]

/-- C10: in a completed non-interrupted quantum that read at least one raw
sample, exactly `q = outputChannelData.length` samples are written — the
scratch buffer is resampled to exactly `q` before writing. -/
theorem c10_full_quantum (s : SPState) (q : ℕ) (r : ProcResult)
    (h : process s q = some r) (hread : 0 < r.samplesRead) :
    r.samplesWritten = q := by
  simp only [process] at h
  split at h
  · injection h with h; subst h; exact absurd hread (by simp)
  · split at h
    · injection h with h; subst h; exact absurd hread (by simp)
    · split at h
      · split at h
        · exact absurd h (by simp)
        · split at h
          · exact absurd h (by simp)
          · split at h
            · injection h with h; subst h
              simp only
              rw [resampleAudioData_length]
              exact min_self q
            · injection h with h; subst h; exact absurd hread (by simp)
      · injection h with h; subst h; exact absurd hread (by simp)

/-- Concrete state for the `c10_full_quantum` witness: skip-silence off,
already started, a 2-sample buffer queued, quantum 4. -/
def c10State : SPState :=
  { initState with
    playbackSkipDigitalSilence := false
    hasStarted := true
    outputBuffers := [⟨some "t", [1/2, 1/2], false⟩] }

/-- The quantum's result at `c10State`: both queued samples are read, the
scratch `[1/2, 1/2, 0, 0]` is already 4 samples, all 4 are written. -/
def c10Res : ProcResult :=
  ⟨{ c10State with
      outputBuffers := []
      playbackOutputOffset := 0
      playbackRate := 1
      trackSampleOffsets := [("t", 4)]
      hasStarted := true
      isInPlayback := true },
    [1/2, 1/2, 0, 0], 2, 2, 4, 2, false⟩

/-- Witness for `c10_full_quantum`. -/
theorem c10_full_quantum_witness :
    process c10State 4 = some c10Res ∧ 0 < c10Res.samplesRead ∧
      c10Res.samplesWritten = 4 :=
  ⟨by decide, by decide, c10_full_quantum c10State 4 c10Res (by decide) (by decide)⟩

end Wavtools

namespace Wavtools

/-- Unfolding the walk at a wholly-silent head unit with the offset at its
start and skip-silence on: the unit is skipped whole — nothing is read
from it, its full length lands in `moved`, the index advances past it. -/
lemma walk_cons_silent (needed : ℕ) (tid : Option String) (u : BufUnit)
    (rest : List BufUnit) (rc : ℕ) (hsil : u.isSilence = true) :
    walk true needed tid (u :: rest) 0 rc =
      { read := (walk true needed u.trackId rest 0 rc).read
        moved := (walk true needed u.trackId rest 0 rc).moved + u.buffer.length
        drop := (walk true needed u.trackId rest 0 rc).drop + 1
        offset := (walk true needed u.trackId rest 0 rc).offset
        trackId := (walk true needed u.trackId rest 0 rc).trackId
        ok := (walk true needed u.trackId rest 0 rc).ok } := by
  rw [walk]
  rw [if_pos (by simp [hsil])]

/-- C1: in a completed quantum with skip-silence on, a wholly-silent unit
at the head of the walk with the consumption offset at its start
contributes nothing to the samples read or to the output quantum (both are
exactly those of the walk over the remaining units), while its full length
is added to the `samplesMoved` reported in the `audio` event; the written
sample count is the output's length, untouched by the unit. -/
theorem c1_silent_head_skipped (s : SPState) (q : ℕ) (r : ProcResult)
    (u : BufUnit) (rest : List BufUnit)
    (hint : s.hasInterrupted = false)
    (hskip : s.playbackSkipDigitalSilence = true)
    (hbuf : s.outputBuffers = u :: rest)
    (hsil : u.isSilence = true)
    (hoff : s.playbackOutputOffset = 0)
    (hsc : shouldConsumeBuffer s = true)
    (hcs : 0 < consumableSamples s)
    (hstep : process s q = some r) :
    r.samplesMoved =
        u.buffer.length + (walk true (neededSamples s q) u.trackId rest 0 0).moved ∧
      r.samplesRead = (walk true (neededSamples s q) u.trackId rest 0 0).read.length ∧
      r.output =
        renderOutput q (neededSamples s q)
          (walk true (neededSamples s q) u.trackId rest 0 0).read ∧
      r.samplesWritten = r.output.length := by
  simp only [process, hint, hbuf, hskip, hoff, hsc, decide_eq_true hcs,
    List.isEmpty_cons, Bool.false_eq_true, if_false, Bool.and_self, if_true] at hstep
  rw [walk_cons_silent (neededSamples s q) none u rest 0 hsil] at hstep
  simp only [] at hstep
  split at hstep
  · exact absurd hstep (by simp)
  · split at hstep
    · exact absurd hstep (by simp)
    · split at hstep
      · next hlen =>
        injection hstep with hstep
        subst hstep
        have hne : (walk true (neededSamples s q) u.trackId rest 0 0).read.isEmpty = false := by
          cases hr : (walk true (neededSamples s q) u.trackId rest 0 0).read with
          | nil => rw [hr] at hlen; exact absurd hlen (by simp)
          | cons a l => simp
        refine ⟨Nat.add_comm _ _, rfl, ?_, ?_⟩
        · simp only [renderOutput, hne, Bool.false_eq_true, if_false]
        · simp only [List.length_take, resampleAudioData_length]
      · next hlen =>
        injection hstep with hstep
        subst hstep
        have hz : (walk true (neededSamples s q) u.trackId rest 0 0).read.length = 0 := by
          omega
        have hne : (walk true (neededSamples s q) u.trackId rest 0 0).read.isEmpty = true := by
          cases hr : (walk true (neededSamples s q) u.trackId rest 0 0).read with
          | nil => simp
          | cons a l => rw [hr] at hz; exact absurd hz (by simp)
        refine ⟨Nat.add_comm _ _, hz.symm, ?_, rfl⟩
        simp only [renderOutput, hne, if_true]

end Wavtools

namespace Wavtools

/-- Head unit for the C1 witness: two silent samples. -/
def c1Head : BufUnit := ⟨some "t", [0, 0], true⟩

/-- Remaining queue for the C1 witness: one non-silent 4-sample unit. -/
def c1Rest : List BufUnit := [⟨some "t", [1, 1, 1, 1], false⟩]

/-- State for the C1 witness: skip-silence on (default), already in
playback, silent head queued before real audio. -/
def c1State : SPState :=
  { initState with isInPlayback := true, outputBuffers := c1Head :: c1Rest }

/-- Result of the witness quantum: the silent head is skipped (its 2
samples only in `samplesMoved`), the 4 real samples are read and written. -/
def c1Res : ProcResult :=
  ⟨{ c1State with
      outputBuffers := []
      playbackOutputOffset := 0
      playbackRate := 1
      trackSampleOffsets := [("t", 4)]
      hasStarted := true
      isInPlayback := true },
    [1, 1, 1, 1], 4, 6, 4, 0, false⟩

/-- Witness for `c1_silent_head_skipped`. -/
theorem c1_silent_head_skipped_witness :
    process c1State 4 = some c1Res ∧
      (c1Res.samplesMoved =
          c1Head.buffer.length +
            (walk true (neededSamples c1State 4) c1Head.trackId c1Rest 0 0).moved ∧
        c1Res.samplesRead =
          (walk true (neededSamples c1State 4) c1Head.trackId c1Rest 0 0).read.length ∧
        c1Res.output =
          renderOutput 4 (neededSamples c1State 4)
            (walk true (neededSamples c1State 4) c1Head.trackId c1Rest 0 0).read ∧
        c1Res.samplesWritten = c1Res.output.length) := by
  have h : process c1State 4 = some c1Res := by decide
  exact ⟨h, c1_silent_head_skipped c1State 4 c1Res c1Head c1Rest rfl rfl rfl rfl rfl
    (by decide) (by decide) h⟩

end Wavtools

namespace Wavtools

/-- The queue unit a single `write` command produces. -/
def writeUnit (w : Option String × List ℤ) : BufUnit :=
  ⟨w.1, w.2.map int16ToFloat, (w.2.map int16ToFloat).all (fun x => x == 0)⟩

/-- A `write` sequence only grows the queue and records track ids: every
other state component is untouched. -/
lemma applyWrites_spec (ws : List (Option String × List ℤ)) : ∀ s : SPState,
    (applyWrites s ws).hasStarted = s.hasStarted ∧
    (applyWrites s ws).hasInterrupted = s.hasInterrupted ∧
    (applyWrites s ws).playbackRateMin = s.playbackRateMin ∧
    (applyWrites s ws).playbackRateMax = s.playbackRateMax ∧
    (applyWrites s ws).playbackRateAffordance = s.playbackRateAffordance ∧
    (applyWrites s ws).playbackSmoothing = s.playbackSmoothing ∧
    (applyWrites s ws).playbackSkipDigitalSilence = s.playbackSkipDigitalSilence ∧
    (applyWrites s ws).playbackMinBuffers = s.playbackMinBuffers ∧
    (applyWrites s ws).playbackRate = s.playbackRate ∧
    (applyWrites s ws).playbackOutputOffset = s.playbackOutputOffset ∧
    (applyWrites s ws).isInPlayback = s.isInPlayback ∧
    (applyWrites s ws).outputBuffers = s.outputBuffers ++ ws.map writeUnit := by
  induction ws with
  | nil => intro s; simp [applyWrites]
  | cons w rest ih =>
    intro s
    have hstep : applyWrites s (w :: rest) = applyWrites (writeMsg s w.1 w.2) rest := rfl
    rw [hstep]
    obtain ⟨h1, h2, h3, h4, h5, h6, h7, h8, h9, h10, h11, h12⟩ := ih (writeMsg s w.1 w.2)
    refine ⟨h1, h2, h3, h4, h5, h6, h7, h8, h9, h10, h11, ?_⟩
    rw [h12]
    simp [writeMsg, writeData, writeUnit]

end Wavtools

namespace Wavtools

/-- `totalQueuedSamples` as a mapped sum. -/
lemma totalQueuedSamples_eq (units : List BufUnit) :
    totalQueuedSamples units = ((units.map (fun u => (u.buffer.length : ℚ))).sum) := by
  suffices h : ∀ a : ℚ,
      units.foldl (fun t u => t + (u.buffer.length : ℚ)) a =
        a + (units.map (fun u => (u.buffer.length : ℚ))).sum by
    have := h 0
    rw [totalQueuedSamples, this, zero_add]
  induction units with
  | nil => intro a; simp
  | cons u rest ih =>
    intro a
    simp only [List.foldl_cons, List.map_cons, List.sum_cons]
    rw [ih]
    ring

/-- The queued sample total of a pure `write`-produced queue is the total
sample count of the writes. -/
lemma totalQueuedSamples_writeUnits (ws : List (Option String × List ℤ)) :
    totalQueuedSamples (ws.map writeUnit) = (sampleSum ws : ℚ) := by
  rw [totalQueuedSamples_eq, sampleSum]
  rw [List.map_map]
  induction ws with
  | nil => simp
  | cons w rest ih =>
    simp only [List.map_cons, List.sum_cons, ih]
    simp [writeUnit, Function.comp]

/-- With skip-silence off, offset 0 and every queued buffer nonempty, the
read-walk terminates; and it reads at least one sample whenever samples
are still needed and the queue is nonempty. -/
lemma walk_noskip (needed : ℕ) : ∀ (bufs : List BufUnit) (tid : Option String) (rc : ℕ),
    (∀ u ∈ bufs, u.buffer ≠ []) → rc ≤ needed →
    (walk false needed tid bufs 0 rc).ok = true ∧
      (rc < needed → bufs ≠ [] → (walk false needed tid bufs 0 rc).read ≠ []) := by
  intro bufs
  induction bufs with
  | nil =>
    intro tid rc _ _
    exact ⟨rfl, fun _ h => absurd rfl h⟩
  | cons u rest ih =>
    intro tid rc hne hrc
    have hu : u.buffer ≠ [] := hne u (List.mem_cons_self u rest)
    have hupos : 0 < u.buffer.length := List.length_pos.mpr hu
    rw [walk]
    rw [if_neg (by simp)]
    by_cases h1 : needed ≤ rc
    · have heq : rc = needed := le_antisymm hrc h1
      rw [if_pos h1]
      exact ⟨by simp [heq], fun hlt _ => absurd heq (by omega)⟩
    · rw [if_neg h1]
      rw [if_neg (by omega)]
      push_neg at h1
      have hwant : 0 < needed - rc := by omega
      by_cases h2 : needed - rc < u.buffer.length - 0
      · rw [if_pos h2]
        refine ⟨rfl, fun _ _ => ?_⟩
        simp only []
        intro habs
        have := congrArg List.length habs
        simp only [List.length_take, List.length_drop, List.length_nil] at this
        omega
      · rw [if_neg h2]
        by_cases h3 : needed - rc = u.buffer.length - 0
        · rw [if_pos h3]
          refine ⟨rfl, fun _ _ => ?_⟩
          simp only []
          intro habs
          have := congrArg List.length habs
          simp only [List.length_drop, List.length_nil] at this
          omega
        · rw [if_neg h3]
          have hrc2 : rc + (u.buffer.length - 0) ≤ needed := by omega
          obtain ⟨hok, _⟩ := ih u.trackId (rc + (u.buffer.length - 0))
            (fun v hv => hne v (List.mem_cons_of_mem u hv)) hrc2
          refine ⟨hok, fun _ _ => ?_⟩
          simp only []
          intro habs
          have := congrArg List.length habs
          simp only [List.length_append, List.length_drop, List.length_nil] at this
          omega

end Wavtools

namespace Wavtools

/-- The session start of claim C2: the default constructor state with
`configure({playbackSkipDigitalSilence: false})` applied. -/
def c2Start : SPState :=
  configureStep initState { playbackSkipDigitalSilence := some false }

/-- Core of claim C2: with skip-silence off, after any sequence of
nonempty `write` commands totalling at least `serverSamplesTarget`
samples, the next quantum completes and sets `hasStarted`. -/
lemma c2_consume (ws : List (Option String × List ℤ))
    (hws : ∀ w ∈ ws, w.2 ≠ [])
    (hsum : serverSamplesTarget c2Start ≤ (sampleSum ws : ℚ)) :
    ∃ r, process (applyWrites c2Start ws) 128 = some r ∧
      r.state.hasStarted = true := by
  obtain ⟨e1, e2, e3, e4, e5, e6, e7, e8, e9, e10, e11, e12⟩ :=
    applyWrites_spec ws c2Start
  set s1 := applyWrites c2Start ws with hs1
  have hInt : s1.hasInterrupted = false := e2.trans rfl
  have hskip : s1.playbackSkipDigitalSilence = false := e7.trans rfl
  have hoff : s1.playbackOutputOffset = 0 := e10.trans rfl
  have hbuf : s1.outputBuffers = ws.map writeUnit := by
    rw [e12]; rfl
  have htv : serverSamplesTarget c2Start = 2048 := by decide
  have htarget : serverSamplesTarget s1 = 2048 := by
    unfold serverSamplesTarget
    rw [e8]
    exact htv
  have hS : (2048 : ℚ) ≤ (sampleSum ws : ℚ) := htv ▸ hsum
  have hcons : consumableSamples s1 = (sampleSum ws : ℚ) := by
    unfold consumableSamples
    rw [hskip, hoff, hbuf]
    simp [totalQueuedSamples_writeUnits]
  have hpos : 0 < consumableSamples s1 := by rw [hcons]; linarith
  have hsc : shouldConsumeBuffer s1 = true := by
    unfold shouldConsumeBuffer
    rw [hskip]
    rw [if_neg (by simp)]
    have hge : consumableSamples s1 ≥ serverSamplesTarget s1 := by
      rw [hcons, htarget]; exact hS
    rw [decide_eq_true hge]
    simp
  have hrmin : s1.playbackRateMin = 1 := e3.trans rfl
  have hrmax : s1.playbackRateMax = 1 := e4.trans rfl
  have hsm : s1.playbackSmoothing = 9/10 := e6.trans rfl
  have hpr : s1.playbackRate = 1 := e9.trans rfl
  have hrate : nextPlaybackRate s1 = 1 := by
    unfold nextPlaybackRate determinePlaybackRate
    rw [hrmin, hrmax, hsm, hpr]
    rw [if_neg (lt_irrefl 1)]
    norm_num
  have hneed : neededSamplesZ s1 128 = 128 := by
    unfold neededSamplesZ
    rw [hrate, mul_one]
    exact_mod_cast Int.floor_natCast 128
  have hneedNat : neededSamples s1 128 = 128 := by
    unfold neededSamples
    rw [hneed]
    rfl
  have hwsne : ws ≠ [] := by
    intro h0
    rw [h0] at hS
    simp [sampleSum] at hS
    linarith
  have hbufs_ne : ∀ u ∈ ws.map writeUnit, u.buffer ≠ [] := by
    intro u hu
    obtain ⟨w, hw, rfl⟩ := List.mem_map.mp hu
    have := hws w hw
    simp [writeUnit]
    exact this
  obtain ⟨hok, hread⟩ := walk_noskip 128 (ws.map writeUnit) none 0 hbufs_ne (by omega)
  have hreadne : (walk false 128 none (ws.map writeUnit) 0 0).read ≠ [] :=
    hread (by omega) (by simp [hwsne])
  simp only [process]
  rw [if_neg (by rw [hInt]; simp)]
  rw [if_neg (by rw [hbuf]; cases ws with
    | nil => exact absurd rfl hwsne
    | cons a l => simp)]
  rw [if_pos (by rw [hsc, decide_eq_true hpos]; rfl)]
  rw [if_neg (by rw [hneed]; omega)]
  rw [hskip, hbuf, hoff, hneedNat]
  rw [if_neg (by rw [hok]; simp)]
  rw [if_pos (List.length_pos.mpr hreadne)]
  exact ⟨_, rfl, rfl⟩

/-- A completed quantum never clears `hasStarted`. -/
lemma process_hasStarted_mono (s : SPState) (q : ℕ) (r : ProcResult)
    (h : process s q = some r) (hs : s.hasStarted = true) :
    r.state.hasStarted = true := by
  simp only [process] at h
  split at h
  · injection h with h; subst h; exact hs
  · split at h
    · injection h with h; subst h; exact hs
    · split at h
      · split at h
        · exact absurd h (by simp)
        · split at h
          · exact absurd h (by simp)
          · split at h
            · injection h with h; subst h; rfl
            · injection h with h; subst h; exact hs
      · injection h with h; subst h; exact hs

/-- No control-channel command changes `hasStarted`. -/
lemma handleMessage_hasStarted (s : SPState) (p : Payload) (s1 : SPState)
    (h : handleMessage s p = Except.ok s1) : s1.hasStarted = s.hasStarted := by
  unfold handleMessage at h
  split at h
  · injection h with h; subst h; simp [writeMsg, writeData]
  · split at h
    · split at h <;> (injection h with h; subst h; rfl)
    · split at h
      · injection h with h; subst h; rfl
      · exact absurd h (by simp)

end Wavtools

namespace Wavtools

/-- C2 amended: in a session configured with `skipSilence = false`, for
every sequence of `write` commands each carrying at least one sample and
totalling `S >= minBufferedUnits * Q` samples, the next scheduler
invocation completes and sets `hasStarted`; and `hasStarted` is monotone —
neither a completed quantum nor any control-channel command ever clears
it. -/
theorem c2_hasStarted :
    (∀ ws : List (Option String × List ℤ), (∀ w ∈ ws, w.2 ≠ []) →
      serverSamplesTarget c2Start ≤ (sampleSum ws : ℚ) →
      ∃ r, process (applyWrites c2Start ws) 128 = some r ∧
        r.state.hasStarted = true) ∧
    (∀ (s : SPState) (q : ℕ) (r : ProcResult), process s q = some r →
      s.hasStarted = true → r.state.hasStarted = true) ∧
    (∀ (s : SPState) (p : Payload) (s1 : SPState),
      handleMessage s p = Except.ok s1 → s1.hasStarted = s.hasStarted) :=
  ⟨c2_consume, process_hasStarted_mono, handleMessage_hasStarted⟩

/-- Witness for `c2_hasStarted`: one 2048-sample write reaches the default
target and starts playback. -/
theorem c2_hasStarted_witness :
    ∃ r, process (applyWrites c2Start [(some "t", List.replicate 2048 1)]) 128 =
        some r ∧ r.state.hasStarted = true :=
  c2_hasStarted.1 [(some "t", List.replicate 2048 1)]
    (by
      intro w hw
      simp only [List.mem_singleton] at hw
      subst hw
      exact List.ne_nil_of_length_pos (by rw [List.length_replicate]; omega))
    (by
      have h1 : sampleSum [((some "t" : Option String), List.replicate 2048 (1 : ℤ))] = 2048 := by
        simp only [sampleSum, List.map_cons, List.map_nil, List.length_replicate,
          List.sum_cons, List.sum_nil, Nat.add_zero]
      have h2 : serverSamplesTarget c2Start = 2048 := by decide
      rw [h1, h2]
      norm_num)

/-- The C2 counterexample session: `minBufferedUnits = 1`,
`skipSilence = false`, then a zero-sample write followed by a 128-sample
write. -/
def c2cxState : SPState :=
  applyWrites
    (configureStep initState
      { playbackMinBuffers := some 1, playbackSkipDigitalSilence := some false })
    [(some "t", []), (some "t", List.replicate 128 1)]

set_option maxRecDepth 8000 in
/-- C2 counterexample: the write total reaches `minBufferedUnits * Q = 128`
yet the next scheduler invocation never completes — the read loop reaches
the zero-length head unit with samples still needed and never advances —
so `hasStarted` does not become true. -/
theorem c2_counterexample : process c2cxState 128 = none := by decide

end Wavtools
